import Mathlib

/-!
Shallow embedding of the mapping/diffing core of a declarative
build-configuration reconciler (Go sources: a build-configuration
resource file and a project resource file).  Go maps with optional keys
become records with `Option` fields, Go errors become an explicit error
type, the remote collaborator becomes an explicit state value, and the
call sequence against the collaborator is recorded as an explicit trace.
-/

set_option autoImplicit false

namespace TC

/-- Error values returned by the embedded code.  The Go code builds its
errors with string formatting; here each error form is one constructor
carrying the data the message embeds. -/
inductive GoErr where
  /-- expand direction: `Unsupported step type` carrying the offending tag. -/
  | unsupportedStepType (tag : String)
  /-- flatten direction: `Build step type not supported` carrying the tag. -/
  | buildStepTypeNotSupported (tag : String)
  /-- models a failed Go type assertion in flattenBuildStep; unreachable for
  steps built by the SDK constructors, where the kind identifier is
  determined by the concrete variant. -/
  | typeAssertionPanic (tag : String)
  /-- models the NotFound error of the remote collaborator. -/
  | remoteNotFound
  /-- models an opaque failure surfaced by the remote collaborator. -/
  | remoteCallFailure (msg : String)
deriving DecidableEq, Repr

/-- Parameter kinds: the closed partition Environment / System / Configuration
(`api.ParameterTypes` in the SDK). -/
inductive ParamType where
  | configuration
  | environmentVariable
  | system
deriving DecidableEq, Repr

/-- A typed remote parameter: the triple (kind, name, value). -/
structure Parameter where
  ptype : ParamType
  name : String
  value : String
deriving DecidableEq, Repr

/-- A flat key-value parameter map of one kind, as an association list.
Go map iteration order is unspecified; the embedding fixes the list order,
and the round-trip theorems hold for every order. -/
abbrev PMap := List (String × String)

/-- Declarative build-step record: the Go `map[string]interface{}` with keys
`type`, `name`, `file`, `args`, `code`; a `none` field models an absent key. -/
structure StepRecord where
  type : String
  name : Option String := none
  file : Option String := none
  args : Option String := none
  code : Option String := none
deriving DecidableEq, Repr

/-- Declarative VCS-root attachment record: `{id, checkout_rules[]}`. -/
structure VcsRootRecord where
  id : String
  checkoutRules : List String
deriving DecidableEq, Repr

/-- Remote VCS-root entry: root reference plus the serialized rule string
(`api.VcsRootEntry`). -/
structure VcsRootEntry where
  id : String
  checkoutRules : String
deriving DecidableEq, Repr

/-- Remote powershell step variant (`api.StepPowershell`). -/
structure StepPowershell where
  name : String
  scriptFile : String
  scriptArgs : String
  code : String
deriving DecidableEq, Repr

/-- Remote command-line step variant (`api.StepCommandLine`). -/
structure StepCommandLine where
  name : String
  commandExecutable : String
  commandParameters : String
  customScript : String
deriving DecidableEq, Repr

/-- Modelled from the spec: the internal kind identifier of the powershell
variant (an SDK string constant, not in src; only its distinctness from the
command-line identifier matters here). -/
def stepTypePowershell : String := "jetbrains_powershell"

/-- Modelled from the spec: the internal kind identifier of the command-line
variant (an SDK string constant, not in src). -/
def stepTypeCommandLine : String := "simpleRunner"

/-- A remote step (`api.Step` interface): one of the two concrete SDK
variants, or a variant of some other engine kind that the codec does not
understand, carrying its kind identifier and name. -/
inductive Step where
  | powershell (s : StepPowershell)
  | cmdLine (s : StepCommandLine)
  | otherKind (typeId : String) (name : String)
deriving DecidableEq, Repr

/-- The `Type()` method of a remote step: the internal kind identifier. -/
def Step.typeId : Step → String
  | .powershell _ => stepTypePowershell
  | .cmdLine _ => stepTypeCommandLine
  | .otherKind t _ => t

/-- The `Name()` method of a remote step. -/
def Step.stepName : Step → String
  | .powershell s => s.name
  | .cmdLine s => s.name
  | .otherKind _ n => n

/-- The fixed mapping from internal kind identifiers to declarative engine
tags (`stepTypeMap` in the source). -/
def stepTypeMap : List (String × String) :=
  [(stepTypePowershell, "powershell"), (stepTypeCommandLine, "cmd_line")]

/-- Go map read `stepTypeMap[k]`: the mapped tag, or the zero value `""`
when the key is absent. -/
def stepTypeMapGet (k : String) : String :=
  match stepTypeMap.lookup k with
  | some v => v
  | none => ""

/-- Modelled from the spec: Terraform GetOk on a string field, returning the
value only when the field is set and not the zero value (the schema front
door is an external collaborator). -/
def getOkStr (o : Option String) : Option String :=
  match o with
  | some s => if s = "" then none else some s
  | none => none

/-- Modelled from the spec: Terraform GetOk on a list- or map-valued field,
returning the value only when it is set and nonempty. -/
def getOkList {α : Type} (o : Option (List α)) : Option (List α) :=
  match o with
  | some l => if l.isEmpty then none else some l
  | none => none

/-! ## Step variant codec -/

/-- flattenBuildStepPowershell: populate the declarative record from a
powershell variant.  Each conditional Go map write becomes a conditional
`Option` field. -/
def flattenBuildStepPowershell (s : StepPowershell) : StepRecord :=
  { type := "powershell"
    file := if s.scriptFile ≠ "" then some s.scriptFile else none
    args := if s.scriptFile ≠ "" ∧ s.scriptArgs ≠ "" then some s.scriptArgs else none
    code := if s.code ≠ "" then some s.code else none
    name := if s.name ≠ "" then some s.name else none }

/-- flattenBuildStepCmdLine: populate the declarative record from a
command-line variant. -/
def flattenBuildStepCmdLine (s : StepCommandLine) : StepRecord :=
  { type := "cmd_line"
    file := if s.commandExecutable ≠ "" then some s.commandExecutable else none
    args := if s.commandExecutable ≠ "" ∧ s.commandParameters ≠ "" then some s.commandParameters else none
    code := if s.customScript ≠ "" then some s.customScript else none
    name := if s.name ≠ "" then some s.name else none }

/-- flattenBuildStep: resolve the engine tag through `stepTypeMap`, then
dispatch to the variant-specific flattener; an unmapped kind identifier is an
error carrying the identifier. -/
def flattenBuildStep (s : Step) : Except GoErr StepRecord :=
  match stepTypeMapGet s.typeId with
  | "powershell" =>
      match s with
      | .powershell p => .ok (flattenBuildStepPowershell p)
      | _ => .error (.typeAssertionPanic s.typeId)
  | "cmd_line" =>
      match s with
      | .cmdLine c => .ok (flattenBuildStepCmdLine c)
      | _ => .error (.typeAssertionPanic s.typeId)
  | _ => .error (.buildStepTypeNotSupported s.typeId)

/-- expandStepPowershell: read the optional fields with `""` defaults, then
build a file-mode variant when the file path is non-empty, else an
inline-mode variant (the SDK constructors zero the other mode). -/
def expandStepPowershell (r : StepRecord) : StepPowershell :=
  let file := r.file.getD ""
  let args := r.args.getD ""
  let name := r.name.getD ""
  let code := r.code.getD ""
  if file ≠ "" then
    { name := name, scriptFile := file, scriptArgs := args, code := "" }
  else
    { name := name, scriptFile := "", scriptArgs := "", code := code }

/-- expandStepCmdLine: same shape for the command-line family. -/
def expandStepCmdLine (r : StepRecord) : StepCommandLine :=
  let file := r.file.getD ""
  let args := r.args.getD ""
  let name := r.name.getD ""
  let code := r.code.getD ""
  if file ≠ "" then
    { name := name, commandExecutable := file, commandParameters := args, customScript := "" }
  else
    { name := name, commandExecutable := "", commandParameters := "", customScript := code }

/-- expandBuildStep: dispatch on the declarative engine tag; an unsupported
tag is an error carrying the tag. -/
def expandBuildStep (r : StepRecord) : Except GoErr Step :=
  match r.type with
  | "powershell" => .ok (.powershell (expandStepPowershell r))
  | "cmd_line" => .ok (.cmdLine (expandStepCmdLine r))
  | t => .error (.unsupportedStepType t)

/-! ## Collection identity hasher -/

/-- Modelled from the spec: the deterministic non-cryptographic string
fingerprint used as a set key (the `hashcode.String` helper of the external
framework, not in src).  Any fixed deterministic function of the text is a
faithful model; a 32-bit polynomial rolling hash is used. -/
def hashcodeString (s : String) : Nat :=
  s.data.foldl (fun h c => (h * 31 + c.toNat) % 2 ^ 32) 5381

/-- vcsRootHash: the set key of a VCS-root attachment is the fingerprint of
the referenced root ID alone. -/
def vcsRootHash (r : VcsRootRecord) : Nat :=
  hashcodeString r.id

/-- stepSetHash, text part: the buffer written before hashing.  The engine
tag is always written with a trailing separator; each of name, file, args is
written (with a trailing separator) only when the key is present. -/
def stepSetHashText (m : StepRecord) : String :=
  m.type ++ "-"
    ++ (match m.name with | some s => s ++ "-" | none => "")
    ++ (match m.file with | some s => s ++ "-" | none => "")
    ++ (match m.args with | some s => s ++ "-" | none => "")

/-- stepSetHash: the set key of a declarative build step. -/
def stepSetHash (m : StepRecord) : Nat :=
  hashcodeString (stepSetHashText m)

/-! ## Parameter codec -/

/-- Modelled from the spec: AddOrReplaceParameter of the SDK parameter
collection, with add-or-replace-by-(kind, name) semantics. -/
def addOrReplaceParameter (ps : List Parameter) (p : Parameter) : List Parameter :=
  if ps.any (fun q => q.ptype = p.ptype ∧ q.name = p.name) then
    ps.map (fun q => if q.ptype = p.ptype ∧ q.name = p.name then p else q)
  else
    ps ++ [p]

/-- Modelled from the spec: Concat of the SDK parameter collection, merging
the second collection into the first member by member with
add-or-replace-by-(kind, name) semantics. -/
def concatParams (ps : List Parameter) (qs : List Parameter) : List Parameter :=
  qs.foldl addOrReplaceParameter ps

/-- expandParameters: every key-value pair of one flat map becomes one
parameter of the given kind, added with add-or-replace semantics.  Values
are strings by type here, so the non-string-value error path of the Go code
cannot fire and the result is total. -/
def expandParameters (raw : PMap) (paramType : ParamType) : List Parameter :=
  raw.foldl (fun out kv => addOrReplaceParameter out ⟨paramType, kv.1, kv.2⟩) []

/-- expandParameterCollection: expand each kind present under GetOk, then
merge in the fixed order Configuration, System, Environment. -/
def expandParameterCollection (envF sysF cfgF : Option PMap) : List Parameter :=
  let env := (getOkList envF).map (expandParameters · .environmentVariable)
  let system := (getOkList sysF).map (expandParameters · .system)
  let config := (getOkList cfgF).map (expandParameters · .configuration)
  let out : List Parameter := []
  let out := match config with
    | some c => concatParams out c
    | none => out
  let out := match system with
    | some s => concatParams out s
    | none => out
  match env with
  | some e => concatParams out e
  | none => out

/-- Go map write `m[k] = v`: replace the binding when the key is present,
append it otherwise. -/
def mapInsert (m : PMap) (k v : String) : PMap :=
  if m.any (fun kv => kv.1 = k) then
    m.map (fun kv => if kv.1 = k then (k, v) else kv)
  else
    m ++ [(k, v)]

/-- flattenParameters, loop body: partition the items by kind into the three
flat maps (config, sys, env), in item order. -/
def flattenParametersAux : List Parameter → PMap × PMap × PMap → PMap × PMap × PMap
  | [], acc => acc
  | p :: rest, (config, sys, env) =>
      match p.ptype with
      | .configuration => flattenParametersAux rest (mapInsert config p.name p.value, sys, env)
      | .environmentVariable => flattenParametersAux rest (config, sys, mapInsert env p.name p.value)
      | .system => flattenParametersAux rest (config, mapInsert sys p.name p.value, env)

/-- flattenParameters: partition a parameter collection by kind, returning
(config, sys, env) as the source does. -/
def flattenParameters (items : List Parameter) : PMap × PMap × PMap :=
  flattenParametersAux items ([], [], [])

/-- flattenParameterCollection, field part: write each kind back into its
declarative field only when that kind has at least one member; a kind with
zero members leaves its field untouched.  Returns (env, sys, config)
fields. -/
def flattenParameterCollectionFields (envF sysF cfgF : Option PMap) (items : List Parameter) :
    Option PMap × Option PMap × Option PMap :=
  let t := flattenParameters items
  let envF := if t.2.2.length > 0 then some t.2.2 else envF
  let sysF := if t.2.1.length > 0 then some t.2.1 else sysF
  let cfgF := if t.1.length > 0 then some t.1 else cfgF
  (envF, sysF, cfgF)

/-! ## Checkout-rule serialization

The source joins the rule list with the two-character separator backslash-n
when attaching and splits the stored string on the same separator when
reading.  The Go standard-library split and join are modelled on
`List Char`, specialized to that separator. -/

/-- Model of the Go standard-library Join on character lists, with the
two-character separator used by the source. -/
def joinBackslashN : List (List Char) → List Char
  | [] => []
  | [x] => x
  | x :: xs => x ++ '\\' :: 'n' :: joinBackslashN xs

/-- Model of the Go standard-library Split on character lists, with the same
separator: greedy left-to-right scan splitting around each occurrence; the
empty input yields one empty piece, as in Go. -/
def splitBackslashN : List Char → List (List Char)
  | [] => [[]]
  | [c] => [[c]]
  | c :: d :: rest =>
      if c = '\\' ∧ d = 'n' then
        [] :: splitBackslashN rest
      else
        match splitBackslashN (d :: rest) with
        | [] => [[c]]
        | hd :: tl => (c :: hd) :: tl

/-- Whether the two-character separator occurs in a character list. -/
def hasSepBackslashN : List Char → Bool
  | [] => false
  | [_] => false
  | c :: d :: rest => (decide (c = '\\' ∧ d = 'n')) || hasSepBackslashN (d :: rest)

/-- String-level join used when attaching. -/
def joinRules (rules : List String) : String :=
  String.mk (joinBackslashN (rules.map String.data))

/-- String-level split used on Read. -/
def splitCheckoutRules (s : String) : List String :=
  (splitBackslashN s.data).map String.mk

/-- buildVcsRootEntry: serialize the rule list to a single string (empty
when the list is empty) and build the remote entry. -/
def buildVcsRootEntry (r : VcsRootRecord) : VcsRootEntry :=
  { id := r.id
    checkoutRules := if r.checkoutRules.length > 0 then joinRules r.checkoutRules else "" }

/-- The per-entry conversion performed by Read: split the stored rule string
back into a declarative record. -/
def readVcsEntry (e : VcsRootEntry) : VcsRootRecord :=
  { id := e.id, checkoutRules := splitCheckoutRules e.checkoutRules }

/-! ## Entity reconciler

The external collaborator is modelled as explicit state (the single entity
the operation works on), each remote call is recorded in a trace, and a
failure oracle decides which remote calls fail, so that partial-completion
behaviour can be stated. -/

/-- A remote build configuration (`api.BuildType`) together with its
sub-collections. -/
structure RemoteBC where
  id : String
  name : String
  projectId : String
  description : String
  parameters : List Parameter
  vcsEntries : List VcsRootEntry
  steps : List Step
deriving DecidableEq, Repr

/-- A remote project (`api.Project`). -/
structure RemoteProject where
  id : String
  name : String
  description : String
  parameters : List Parameter
deriving DecidableEq, Repr

/-- Declarative state of a build-configuration resource (the ResourceData
fields of its schema); a `none` field is unset. -/
@[ext]
structure BCData where
  id : String := ""
  name : Option String := none
  projectId : Option String := none
  description : Option String := none
  vcsRoot : Option (List VcsRootRecord) := none
  step : Option (List StepRecord) := none
  envParams : Option PMap := none
  sysParams : Option PMap := none
  configParams : Option PMap := none
deriving DecidableEq, Repr

/-- Declarative state of a project resource. -/
structure ProjData where
  id : String := ""
  name : Option String := none
  description : Option String := none
  envParams : Option PMap := none
  sysParams : Option PMap := none
  configParams : Option PMap := none
deriving DecidableEq, Repr

/-- One call against the external collaborator, as recorded in the trace. -/
inductive RemoteCall where
  | createBuildType (projectId : String)
  | attachVcsRootEntry (btId : String) (e : VcsRootEntry)
  | addStep (btId : String) (s : Step)
  | getBuildTypeById (id : String)
  | getStepsCall (id : String)
  | deleteBuildType (id : String)
  | createProject (name : String)
  | getProjectById (id : String)
  | updateProject (p : RemoteProject)
  | deleteProject (id : String)
deriving DecidableEq, Repr

/-- Failure oracle: which remote calls of a Create run fail, by call kind
and zero-based call index. -/
structure Oracle where
  createBuildTypeErr : Option GoErr := none
  attachVcsErr : Nat → Option GoErr := fun _ => none
  addStepErr : Nat → Option GoErr := fun _ => none

/-- Modelled from the spec: fetching an entity absent by ID is a NotFound
error propagated to the caller. -/
def getBuildTypeById (remote : Option RemoteBC) (id : String) : Except GoErr RemoteBC :=
  match remote with
  | some bt => if bt.id = id then .ok bt else .error .remoteNotFound
  | none => .error .remoteNotFound

/-- Modelled from the spec: fetch-all-steps for a build-configuration ID. -/
def getStepsRemote (remote : Option RemoteBC) (id : String) : Except GoErr (List Step) :=
  match remote with
  | some bt => if bt.id = id then .ok bt.steps else .error .remoteNotFound
  | none => .error .remoteNotFound

/-- Remote effect of a successful attach-VCS-root-entry call. -/
def remoteAttach (remote : Option RemoteBC) (btId : String) (e : VcsRootEntry) : Option RemoteBC :=
  remote.map (fun bt => if bt.id = btId then { bt with vcsEntries := bt.vcsEntries ++ [e] } else bt)

/-- Remote effect of a successful add-step call. -/
def remoteAddStep (remote : Option RemoteBC) (btId : String) (s : Step) : Option RemoteBC :=
  remote.map (fun bt => if bt.id = btId then { bt with steps := bt.steps ++ [s] } else bt)

/-- Flatten a list of remote steps, surfacing the first error, as the Read
loop does. -/
def flattenSteps : List Step → Except GoErr (List StepRecord)
  | [] => .ok []
  | s :: rest =>
      match flattenBuildStep s with
      | .error e => .error e
      | .ok r =>
          match flattenSteps rest with
          | .error e => .error e
          | .ok rs => .ok (r :: rs)

/-- Apply the three parameter-map writes of flattenParameterCollection to a
build-configuration state. -/
def flattenParameterCollectionBC (d : BCData) (items : List Parameter) : BCData :=
  let t := flattenParameterCollectionFields d.envParams d.sysParams d.configParams items
  { d with envParams := t.1, sysParams := t.2.1, configParams := t.2.2 }

/-- Apply the three parameter-map writes of flattenParameterCollection to a
project state. -/
def flattenParameterCollectionProj (d : ProjData) (items : List Parameter) : ProjData :=
  let t := flattenParameterCollectionFields d.envParams d.sysParams d.configParams items
  { d with envParams := t.1, sysParams := t.2.1, configParams := t.2.2 }

/-- resourceBuildConfigurationRead: fetch the entity, write name,
description and project id, flatten parameters, then write the VCS-root and
step collections only when nonempty.  Returns (error, state, trace); on an
error the state holds the writes performed so far, as the in-place Go
mutation does. -/
def resourceBuildConfigurationRead (d : BCData) (remote : Option RemoteBC) :
    Option GoErr × BCData × List RemoteCall :=
  match getBuildTypeById remote d.id with
  | .error e => (some e, d, [.getBuildTypeById d.id])
  | .ok bt =>
      let d1 := { d with name := some bt.name, description := some bt.description,
                         projectId := some bt.projectId }
      let d2 := flattenParameterCollectionBC d1 bt.parameters
      let d3 := if bt.vcsEntries.length > 0 then
                  { d2 with vcsRoot := some (bt.vcsEntries.map readVcsEntry) }
                else d2
      match getStepsRemote remote d.id with
      | .error e => (some e, d3, [.getBuildTypeById d.id, .getStepsCall d.id])
      | .ok steps =>
          if steps.length > 0 then
            match flattenSteps steps with
            | .error e => (some e, d3, [.getBuildTypeById d.id, .getStepsCall d.id])
            | .ok recs =>
                (none, { d3 with step := some recs }, [.getBuildTypeById d.id, .getStepsCall d.id])
          else
            (none, d3, [.getBuildTypeById d.id, .getStepsCall d.id])

/-- The VCS-attachment loop of Create: attach each entry in order, stopping
at the first failing call; a successful call appends the entry remotely. -/
def attachVcsLoop (orc : Oracle) (btId : String) :
    List VcsRootRecord → Nat → Option RemoteBC →
    Option GoErr × Option RemoteBC × List RemoteCall
  | [], _, remote => (none, remote, [])
  | r :: rest, i, remote =>
      let e := buildVcsRootEntry r
      match orc.attachVcsErr i with
      | some err => (some err, remote, [.attachVcsRootEntry btId e])
      | none =>
          let remote1 := remoteAttach remote btId e
          let t := attachVcsLoop orc btId rest (i + 1) remote1
          (t.1, t.2.1, .attachVcsRootEntry btId e :: t.2.2)

/-- The step-addition loop of Create: expand each record (returning the
expansion error before any call when it fails), then add it, stopping at the
first failing call. -/
def addStepLoop (orc : Oracle) (btId : String) :
    List StepRecord → Nat → Option RemoteBC →
    Option GoErr × Option RemoteBC × List RemoteCall
  | [], _, remote => (none, remote, [])
  | r :: rest, i, remote =>
      match expandBuildStep r with
      | .error e => (some e, remote, [])
      | .ok newStep =>
          match orc.addStepErr i with
          | some err => (some err, remote, [.addStep btId newStep])
          | none =>
              let remote1 := remoteAddStep remote btId newStep
              let t := addStepLoop orc btId rest (i + 1) remote1
              (t.1, t.2.1, .addStep btId newStep :: t.2.2)

/-- The sub-resource phase of Create, after the entity exists remotely:
attach VCS roots and add steps one at a time, returning the first error
immediately; on full success, finish with a Read of the created entity.
The declarative fields are read from the id-updated state `d1`, which agrees
with the input state on every field but the id. -/
def resourceBuildConfigurationCreateTail (orc : Oracle) (projectID : String)
    (d1 : BCData) (created : RemoteBC) :
    Option GoErr × BCData × Option RemoteBC × List RemoteCall :=
  let vcsList := (getOkList d1.vcsRoot).getD []
  let tv := attachVcsLoop orc created.id vcsList 0 (some created)
  match tv.1 with
  | some e => (some e, d1, tv.2.1, .createBuildType projectID :: tv.2.2)
  | none =>
      let stepList := (getOkList d1.step).getD []
      let ts := addStepLoop orc created.id stepList 0 tv.2.1
      match ts.1 with
      | some e => (some e, d1, ts.2.1, .createBuildType projectID :: tv.2.2 ++ ts.2.2)
      | none =>
          let tr := resourceBuildConfigurationRead d1 ts.2.1
          (tr.1, tr.2.1, ts.2.1, .createBuildType projectID :: tv.2.2 ++ ts.2.2 ++ tr.2.2)

/-- resourceBuildConfigurationCreate: build the entity from the mandatory
identity fields, overlay description and parameters, create it remotely
(the remote assigns `assignedId`), set the local id, then run the
sub-resource phase. -/
def resourceBuildConfigurationCreate (d : BCData) (orc : Oracle) (assignedId : String) :
    Option GoErr × BCData × Option RemoteBC × List RemoteCall :=
  let projectID := (getOkStr d.projectId).getD ""
  let name := (getOkStr d.name).getD ""
  let bt0 : RemoteBC :=
    { id := "", name := name, projectId := projectID, description := "",
      parameters := [], vcsEntries := [], steps := [] }
  let bt1 := match getOkStr d.description with
    | some s => { bt0 with description := s }
    | none => bt0
  let bt2 := { bt1 with parameters := expandParameterCollection d.envParams d.sysParams d.configParams }
  match orc.createBuildTypeErr with
  | some e => (some e, d, none, [.createBuildType projectID])
  | none =>
      let created := { bt2 with id := assignedId }
      let d1 := { d with id := created.id }
      resourceBuildConfigurationCreateTail orc projectID d1 created

/-- resourceBuildConfigurationUpdate: the source body is a bare success
return; no state is touched and no remote call is made. -/
def resourceBuildConfigurationUpdate (d : BCData) (remote : Option RemoteBC) :
    Option GoErr × BCData × Option RemoteBC × List RemoteCall :=
  (none, d, remote, [])

/-- resourceBuildConfigurationDelete: remove the entity by ID. -/
def resourceBuildConfigurationDelete (d : BCData) (remote : Option RemoteBC) :
    Option GoErr × Option RemoteBC × List RemoteCall :=
  match remote with
  | some bt => if bt.id = d.id then (none, none, [.deleteBuildType d.id]) else (none, remote, [.deleteBuildType d.id])
  | none => (none, none, [.deleteBuildType d.id])

/-- Modelled from the spec: fetching a project absent by ID is a NotFound
error. -/
def getProjectById (remote : Option RemoteProject) (id : String) : Except GoErr RemoteProject :=
  match remote with
  | some p => if p.id = id then .ok p else .error .remoteNotFound
  | none => .error .remoteNotFound

/-- resourceProjectUpdate: fetch the current remote project, overlay the
description (when set) and the full parameter replacement, and persist; no
declarative field is written. -/
def resourceProjectUpdate (d : ProjData) (remote : Option RemoteProject) :
    Option GoErr × ProjData × Option RemoteProject × List RemoteCall :=
  match getProjectById remote d.id with
  | .error e => (some e, d, remote, [.getProjectById d.id])
  | .ok dt =>
      let dt1 := match getOkStr d.description with
        | some s => { dt with description := s }
        | none => dt
      let dt2 := { dt1 with parameters := expandParameterCollection d.envParams d.sysParams d.configParams }
      (none, d, some dt2, [.getProjectById d.id, .updateProject dt2])

/-- resourceProjectCreate: create the project from its name (the remote
assigns `assignedId`), set the local id, then delegate to Update; no Read is
performed. -/
def resourceProjectCreate (d : ProjData) (assignedId : String) :
    Option GoErr × ProjData × Option RemoteProject × List RemoteCall :=
  let name := (getOkStr d.name).getD ""
  let created : RemoteProject := { id := assignedId, name := name, description := "", parameters := [] }
  let remote1 : Option RemoteProject := some created
  let d1 := { d with id := created.id }
  let tu := resourceProjectUpdate d1 remote1
  (tu.1, tu.2.1, tu.2.2.1, .createProject name :: tu.2.2.2)

/-- resourceProjectRead: fetch the project and write name, description and
the flattened parameter maps back into declarative state. -/
def resourceProjectRead (d : ProjData) (remote : Option RemoteProject) :
    Option GoErr × ProjData × List RemoteCall :=
  match getProjectById remote d.id with
  | .error e => (some e, d, [.getProjectById d.id])
  | .ok dt =>
      let d1 := { d with name := some dt.name, description := some dt.description }
      let d2 := flattenParameterCollectionProj d1 dt.parameters
      (none, d2, [.getProjectById d.id])

/-! ## Claims about the step variant codec -/

/-- C1, counterexample: the two flatten helpers write `file` and `code`
under independent conditions, so a remote variant carrying both a non-empty
file path and non-empty inline content flattens to a record containing both
fields, for the powershell as for the command-line variant. -/
theorem c1_flatten_both_modes_counterexample :
    (StepPowershell.mk "" "f.ps1" "" "body").scriptFile ≠ "" ∧
    (flattenBuildStepPowershell (StepPowershell.mk "" "f.ps1" "" "body")).code ≠ none ∧
    (StepCommandLine.mk "" "run.sh" "" "body").commandExecutable ≠ "" ∧
    (flattenBuildStepCmdLine (StepCommandLine.mk "" "run.sh" "" "body")).code ≠ none := by
  refine ⟨by decide, ?_, by decide, ?_⟩ <;> decide

/-- C1, amended: for every remote step variant that does not carry both a
non-empty file path and non-empty inline content, the flattened record never
contains both file and code; when the file path is non-empty the record has
file (and args only when args is non-empty) and no code, and when the file
path is empty it has no file or args and has code exactly when the inline
content is non-empty.  This holds for both variants. -/
theorem c1_flatten_mode_exclusive :
    (∀ p : StepPowershell, ¬(p.scriptFile ≠ "" ∧ p.code ≠ "") →
      ¬((flattenBuildStepPowershell p).file.isSome ∧ (flattenBuildStepPowershell p).code.isSome) ∧
      (p.scriptFile ≠ "" →
        (flattenBuildStepPowershell p).file = some p.scriptFile ∧
        (flattenBuildStepPowershell p).code = none ∧
        (flattenBuildStepPowershell p).args =
          (if p.scriptArgs ≠ "" then some p.scriptArgs else none)) ∧
      (p.scriptFile = "" →
        (flattenBuildStepPowershell p).file = none ∧
        (flattenBuildStepPowershell p).args = none ∧
        (flattenBuildStepPowershell p).code =
          (if p.code ≠ "" then some p.code else none))) ∧
    (∀ c : StepCommandLine, ¬(c.commandExecutable ≠ "" ∧ c.customScript ≠ "") →
      ¬((flattenBuildStepCmdLine c).file.isSome ∧ (flattenBuildStepCmdLine c).code.isSome) ∧
      (c.commandExecutable ≠ "" →
        (flattenBuildStepCmdLine c).file = some c.commandExecutable ∧
        (flattenBuildStepCmdLine c).code = none ∧
        (flattenBuildStepCmdLine c).args =
          (if c.commandParameters ≠ "" then some c.commandParameters else none)) ∧
      (c.commandExecutable = "" →
        (flattenBuildStepCmdLine c).file = none ∧
        (flattenBuildStepCmdLine c).args = none ∧
        (flattenBuildStepCmdLine c).code =
          (if c.customScript ≠ "" then some c.customScript else none))) := by
  constructor
  · intro p h
    by_cases hf : p.scriptFile = "" <;> by_cases hc : p.code = "" <;>
      simp [flattenBuildStepPowershell, hf, hc] at h ⊢
  · intro c h
    by_cases hf : c.commandExecutable = "" <;> by_cases hc : c.customScript = "" <;>
      simp [flattenBuildStepCmdLine, hf, hc] at h ⊢

/-- C1, witness: the amended theorem applied to a concrete file-mode
powershell step and a concrete inline-mode command-line step. -/
theorem c1_flatten_mode_exclusive_witness :
    (¬((StepPowershell.mk "s" "f.ps1" "-a" "").scriptFile ≠ "" ∧
       (StepPowershell.mk "s" "f.ps1" "-a" "").code ≠ "")) ∧
    (flattenBuildStepPowershell (StepPowershell.mk "s" "f.ps1" "-a" "")).code = none ∧
    (¬((StepCommandLine.mk "s" "" "" "body").commandExecutable ≠ "" ∧
       (StepCommandLine.mk "s" "" "" "body").customScript ≠ "")) ∧
    (flattenBuildStepCmdLine (StepCommandLine.mk "s" "" "" "body")).code = some "body" := by
  refine ⟨by decide, ?_, by decide, ?_⟩
  · exact ((c1_flatten_mode_exclusive.1 (StepPowershell.mk "s" "f.ps1" "-a" "")
      (by decide)).2.1 (by decide)).2.1
  · have h := ((c1_flatten_mode_exclusive.2 (StepCommandLine.mk "s" "" "" "body")
      (by decide)).2.2 (by decide)).2.2
    simpa using h

/-- C6: expanding a declarative step whose engine tag is neither powershell
nor cmd_line returns the unsupported-step-type error carrying the tag and
produces no step; flattening a remote step whose kind identifier has no
entry in the fixed mapping returns the not-supported error carrying the
identifier. -/
theorem c6_unsupported_tag_is_error :
    (∀ r : StepRecord, r.type ≠ "powershell" → r.type ≠ "cmd_line" →
      expandBuildStep r = .error (.unsupportedStepType r.type)) ∧
    (∀ (t nm : String), t ≠ stepTypePowershell → t ≠ stepTypeCommandLine →
      flattenBuildStep (.otherKind t nm) = .error (.buildStepTypeNotSupported t)) := by
  constructor
  · intro r h1 h2
    unfold expandBuildStep
    split
    · simp_all
    · simp_all
    · rfl
  · intro t nm h1 h2
    have e1 : (t == stepTypePowershell) = false := beq_eq_false_iff_ne.mpr h1
    have e2 : (t == stepTypeCommandLine) = false := beq_eq_false_iff_ne.mpr h2
    have hget : stepTypeMapGet t = "" := by
      unfold stepTypeMapGet stepTypeMap
      simp [List.lookup, e1, e2]
    unfold flattenBuildStep
    simp only [Step.typeId, hget]
    rfl

/-- C6, witness: a concrete unsupported tag on each direction. -/
theorem c6_unsupported_tag_is_error_witness :
    expandBuildStep { type := "maven" } = .error (.unsupportedStepType "maven") ∧
    flattenBuildStep (.otherKind "maven" "") = .error (.buildStepTypeNotSupported "maven") :=
  ⟨c6_unsupported_tag_is_error.1 { type := "maven" } (by decide) (by decide),
   c6_unsupported_tag_is_error.2 "maven" "" (by decide) (by decide)⟩

/-! ## Claims about the identity hasher -/

/-- C5: the VCS-root set key is a function of the root ID alone, so two
attachments with the same ID and different checkout rules collide; in
particular for id vcs1 with rule lists [a] and [b]. -/
theorem c5_vcs_hash_ignores_rules :
    (∀ (id : String) (r1 r2 : List String),
      vcsRootHash ⟨id, r1⟩ = vcsRootHash ⟨id, r2⟩) ∧
    vcsRootHash ⟨"vcs1", ["a"]⟩ = vcsRootHash ⟨"vcs1", ["b"]⟩ := by
  exact ⟨fun _ _ _ => rfl, rfl⟩

/-- C4, counterexample: the step hash omits absent fields entirely, so a
record with only a name and a record with only a file (same text) produce
the same buffer and hash, while an absent name and a present-but-empty name
produce different buffers and different hashes. -/
theorem c4_step_hash_counterexample :
    stepSetHash { type := "t", name := some "x" } = stepSetHash { type := "t", file := some "x" } ∧
    stepSetHash { type := "t" } ≠ stepSetHash { type := "t", name := some "" } := by
  exact ⟨rfl, by decide⟩

/-- C4, amended: the step fingerprint hashes the concatenation, in the fixed
order (engine tag, name, file, args), of the tag and each present field,
each followed by a separator; an absent field is omitted entirely (no
separator), so an absent field and a present-but-empty field yield different
concatenated text, and two records that differ only in which of name/file/
args carries a given text collapse to the same hash. -/
theorem c4_step_hash_shape :
    (∀ (t n f a : String) (c : Option String),
      stepSetHashText { type := t, name := some n, file := some f, args := some a, code := c } =
        t ++ "-" ++ (n ++ "-") ++ (f ++ "-") ++ (a ++ "-")) ∧
    (∀ (t : String) (c : Option String),
      stepSetHashText { type := t, code := c } = t ++ "-") ∧
    (∀ (t x : String) (c c2 : Option String),
      stepSetHash { type := t, name := some x, code := c } =
        stepSetHash { type := t, file := some x, code := c2 }) ∧
    (∀ (t : String) (c : Option String),
      stepSetHashText { type := t, code := c } ≠
        stepSetHashText { type := t, name := some "", code := c }) := by
  refine ⟨fun t n f a c => rfl, ?_, ?_, ?_⟩
  · intro t c
    apply String.ext
    simp [stepSetHashText]
  · intro t x c c2
    unfold stepSetHash
    congr 1
    apply String.ext
    simp [stepSetHashText]
  · intro t c h
    have hl := congrArg String.length h
    simp [stepSetHashText, String.length_append] at hl
    exact absurd hl (by decide)

/-! ## Parameter round trip -/

/-- The parameter list one flat map of one kind denotes. -/
def mkParams (l : PMap) (t : ParamType) : List Parameter :=
  l.map (fun kv => ⟨t, kv.1, kv.2⟩)

/-- Adding a parameter whose (kind, name) key is fresh appends it. -/
theorem addOrReplaceParameter_of_fresh (ps : List Parameter) (p : Parameter)
    (h : ∀ q ∈ ps, ¬(q.ptype = p.ptype ∧ q.name = p.name)) :
    addOrReplaceParameter ps p = ps ++ [p] := by
  unfold addOrReplaceParameter
  rw [if_neg]
  simp only [List.any_eq_true, decide_eq_true_eq, not_exists]
  intro q
  intro hcon
  exact h q hcon.1 hcon.2

/-- Merging a collection whose keys are fresh for the target and pairwise
distinct is concatenation. -/
theorem concatParams_of_disjoint (qs : List Parameter) (ps : List Parameter)
    (hdisj : ∀ p ∈ qs, ∀ q ∈ ps, ¬(q.ptype = p.ptype ∧ q.name = p.name))
    (hq : qs.Pairwise (fun p q => ¬(p.ptype = q.ptype ∧ p.name = q.name))) :
    concatParams ps qs = ps ++ qs := by
  induction qs generalizing ps with
  | nil => simp [concatParams]
  | cons p rest ih =>
      have hstep : addOrReplaceParameter ps p = ps ++ [p] :=
        addOrReplaceParameter_of_fresh ps p (fun q hqmem => hdisj p (by simp) q hqmem)
      have hpair := List.pairwise_cons.mp hq
      have htail : concatParams (ps ++ [p]) rest = (ps ++ [p]) ++ rest := by
        refine ih _ ?_ hpair.2
        intro p2 hp2 q hqmem
        rcases List.mem_append.mp hqmem with hqm | hqm
        · exact hdisj p2 (by simp [hp2]) q hqm
        · have hq2 : q = p := by simpa using hqm
          subst hq2
          exact hpair.1 p2 hp2
      calc concatParams ps (p :: rest)
          = concatParams (addOrReplaceParameter ps p) rest := by
            simp [concatParams]
        _ = (ps ++ [p]) ++ rest := by rw [hstep]; exact htail
        _ = ps ++ (p :: rest) := by simp

/-- Folding add-or-replace over a nodup-keyed flat map from a fresh
accumulator appends the denoted parameters. -/
theorem foldl_addOrReplace_fresh (raw : PMap) (t : ParamType) (out : List Parameter)
    (hfresh : ∀ kv ∈ raw, ∀ q ∈ out, ¬(q.ptype = t ∧ q.name = kv.1))
    (hnd : (raw.map Prod.fst).Nodup) :
    raw.foldl (fun o kv => addOrReplaceParameter o ⟨t, kv.1, kv.2⟩) out = out ++ mkParams raw t := by
  induction raw generalizing out with
  | nil => simp [mkParams]
  | cons kv rest ih =>
      rw [List.foldl_cons]
      have hhead : addOrReplaceParameter out ⟨t, kv.1, kv.2⟩ = out ++ [⟨t, kv.1, kv.2⟩] :=
        addOrReplaceParameter_of_fresh out _ (fun q hq => hfresh kv (by simp) q hq)
      rw [hhead]
      simp only [List.map_cons, List.nodup_cons] at hnd
      have hnotin : kv.1 ∉ rest.map Prod.fst := hnd.1
      have hfresh2 : ∀ kv2 ∈ rest, ∀ q ∈ out ++ [(⟨t, kv.1, kv.2⟩ : Parameter)],
          ¬(q.ptype = t ∧ q.name = kv2.1) := by
        intro kv2 hkv2 q hqmem
        rcases List.mem_append.mp hqmem with hqm | hqm
        · exact hfresh kv2 (by simp [hkv2]) q hqm
        · have hq2 : q = ⟨t, kv.1, kv.2⟩ := by simpa using hqm
          subst hq2
          rintro ⟨-, hname⟩
          have hname2 : kv.1 = kv2.1 := hname
          have hmem : kv.1 ∈ rest.map Prod.fst := by
            rw [hname2]
            exact List.mem_map_of_mem Prod.fst hkv2
          exact hnotin hmem
      have hrec := ih (out ++ [(⟨t, kv.1, kv.2⟩ : Parameter)]) hfresh2 hnd.2
      rw [hrec]
      simp [mkParams]

/-- expandParameters on a nodup-keyed map is the denoted parameter list. -/
theorem expandParameters_eq_mkParams (raw : PMap) (t : ParamType)
    (hnd : (raw.map Prod.fst).Nodup) :
    expandParameters raw t = mkParams raw t := by
  unfold expandParameters
  rw [foldl_addOrReplace_fresh raw t [] (by simp) hnd]
  simp

/-- The denoted parameters of a nodup-keyed map have pairwise distinct
keys. -/
theorem pairwiseKey_mkParams (l : PMap) (t : ParamType)
    (hnd : (l.map Prod.fst).Nodup) :
    (mkParams l t).Pairwise (fun p q => ¬(p.ptype = q.ptype ∧ p.name = q.name)) := by
  unfold mkParams
  rw [List.pairwise_map]
  have := (List.pairwise_map (f := Prod.fst)).mp hnd
  refine this.imp ?_
  intro a b hab
  rintro ⟨-, hname⟩
  exact hab hname

/-- Parameters of different kinds never share a key. -/
theorem mkParams_disjoint_kinds (l1 l2 : PMap) (t1 t2 : ParamType) (hne : t1 ≠ t2) :
    ∀ p ∈ mkParams l2 t2, ∀ q ∈ mkParams l1 t1, ¬(q.ptype = p.ptype ∧ q.name = p.name) := by
  intro p hp q hq
  rcases List.mem_map.mp hp with ⟨kv2, -, rfl⟩
  rcases List.mem_map.mp hq with ⟨kv1, -, rfl⟩
  rintro ⟨htype, -⟩
  exact hne htype

/-- Go map write of a fresh key appends the binding. -/
theorem mapInsert_of_fresh (m : PMap) (k v : String) (h : ∀ kv ∈ m, kv.1 ≠ k) :
    mapInsert m k v = m ++ [(k, v)] := by
  unfold mapInsert
  rw [if_neg]
  simp only [List.any_eq_true, decide_eq_true_eq, not_exists]
  intro kv
  intro hcon
  exact h kv hcon.1 hcon.2

/-- Inserting all bindings of a flat map into a Go map. -/
def insertAll (m0 : PMap) (l : PMap) : PMap :=
  l.foldl (fun m kv => mapInsert m kv.1 kv.2) m0

/-- Inserting nodup-keyed fresh bindings appends them. -/
theorem insertAll_of_fresh (l : PMap) (m0 : PMap)
    (hfresh : ∀ kv ∈ l, ∀ kv2 ∈ m0, kv2.1 ≠ kv.1)
    (hnd : (l.map Prod.fst).Nodup) :
    insertAll m0 l = m0 ++ l := by
  induction l generalizing m0 with
  | nil => simp [insertAll]
  | cons kv rest ih =>
      simp only [List.map_cons, List.nodup_cons] at hnd
      have hstep : mapInsert m0 kv.1 kv.2 = m0 ++ [kv] :=
        mapInsert_of_fresh m0 kv.1 kv.2 (fun kv2 h2 => hfresh kv (by simp) kv2 h2)
      have htail : insertAll (m0 ++ [kv]) rest = (m0 ++ [kv]) ++ rest := by
        refine ih _ ?_ hnd.2
        intro kv2 hkv2 kv3 hkv3
        rcases List.mem_append.mp hkv3 with hm | hm
        · exact hfresh kv2 (by simp [hkv2]) kv3 hm
        · have heq3 : kv3 = kv := by simpa using hm
          subst heq3
          intro heq
          have hmem : kv3.1 ∈ rest.map Prod.fst := by
            rw [heq]
            exact List.mem_map_of_mem Prod.fst hkv2
          exact hnd.1 hmem
      calc insertAll m0 (kv :: rest)
          = insertAll (mapInsert m0 kv.1 kv.2) rest := by simp [insertAll]
        _ = (m0 ++ [kv]) ++ rest := by rw [hstep]; exact htail
        _ = m0 ++ (kv :: rest) := by simp

/-- The flatten loop distributes over appended segments. -/
theorem flattenParametersAux_append (a b : List Parameter) (acc : PMap × PMap × PMap) :
    flattenParametersAux (a ++ b) acc = flattenParametersAux b (flattenParametersAux a acc) := by
  induction a generalizing acc with
  | nil => rfl
  | cons p rest ih =>
      obtain ⟨c, s, e⟩ := acc
      cases hp : p.ptype <;> simp [flattenParametersAux, hp, ih]

/-- The flatten loop over a configuration-kind segment only inserts into the
configuration component. -/
theorem flattenParametersAux_config (m : PMap) (acc : PMap × PMap × PMap) :
    flattenParametersAux (mkParams m .configuration) acc =
      (insertAll acc.1 m, acc.2.1, acc.2.2) := by
  induction m generalizing acc with
  | nil => simp [mkParams, flattenParametersAux, insertAll]
  | cons kv rest ih =>
      obtain ⟨c, s, e⟩ := acc
      simp [mkParams, flattenParametersAux, insertAll] at ih ⊢
      exact ih (mapInsert c kv.1 kv.2) s e

/-- The flatten loop over a system-kind segment only inserts into the system
component. -/
theorem flattenParametersAux_system (m : PMap) (acc : PMap × PMap × PMap) :
    flattenParametersAux (mkParams m .system) acc =
      (acc.1, insertAll acc.2.1 m, acc.2.2) := by
  induction m generalizing acc with
  | nil => simp [mkParams, flattenParametersAux, insertAll]
  | cons kv rest ih =>
      obtain ⟨c, s, e⟩ := acc
      simp [mkParams, flattenParametersAux, insertAll] at ih ⊢
      exact ih c (mapInsert s kv.1 kv.2) e

/-- The flatten loop over an environment-kind segment only inserts into the
environment component. -/
theorem flattenParametersAux_env (m : PMap) (acc : PMap × PMap × PMap) :
    flattenParametersAux (mkParams m .environmentVariable) acc =
      (acc.1, acc.2.1, insertAll acc.2.2 m) := by
  induction m generalizing acc with
  | nil => simp [mkParams, flattenParametersAux, insertAll]
  | cons kv rest ih =>
      obtain ⟨c, s, e⟩ := acc
      simp [mkParams, flattenParametersAux, insertAll] at ih ⊢
      exact ih c s (mapInsert e kv.1 kv.2)

/-- Flattening the three denoted kind segments recovers the three flat
maps. -/
theorem flattenParameters_segments (cfgL sysL envL : PMap)
    (hc : (cfgL.map Prod.fst).Nodup) (hs : (sysL.map Prod.fst).Nodup)
    (he : (envL.map Prod.fst).Nodup) :
    flattenParameters
      (mkParams cfgL .configuration ++ mkParams sysL .system ++ mkParams envL .environmentVariable)
      = (cfgL, sysL, envL) := by
  unfold flattenParameters
  rw [flattenParametersAux_append, flattenParametersAux_append]
  rw [flattenParametersAux_config, flattenParametersAux_system, flattenParametersAux_env]
  simp only
  rw [insertAll_of_fresh cfgL [] (by simp) hc,
      insertAll_of_fresh sysL [] (by simp) hs,
      insertAll_of_fresh envL [] (by simp) he]
  simp

/-- Under GetOk semantics a present map that is nonempty passes through. -/
theorem getOkList_of_good {α : Type} (o : Option (List α)) (h : ∀ m, o = some m → m ≠ []) :
    getOkList o = o := by
  cases o with
  | none => rfl
  | some m =>
      show (if m.isEmpty = true then none else some m) = some m
      rw [if_neg]
      simp only [List.isEmpty_iff]
      exact h m rfl

/-- Every member of a denoted kind segment has that kind. -/
theorem mem_mkParams_ptype (m : PMap) (t : ParamType) (q : Parameter)
    (hq : q ∈ mkParams m t) : q.ptype = t := by
  rcases List.mem_map.mp hq with ⟨kv, -, rfl⟩
  rfl

/-- Merging a denoted kind segment into a collection free of that kind is
concatenation. -/
theorem concat_mkParams_append (out : List Parameter) (m : PMap) (t : ParamType)
    (hout : ∀ q ∈ out, q.ptype ≠ t) (hnd : (m.map Prod.fst).Nodup) :
    concatParams out (mkParams m t) = out ++ mkParams m t := by
  refine concatParams_of_disjoint _ _ ?_ (pairwiseKey_mkParams m t hnd)
  intro p hp q hq
  rintro ⟨htype, -⟩
  exact hout q hq (htype.trans (mem_mkParams_ptype m t p hp))

/-- Kind-freeness is preserved by concatenation. -/
theorem ptype_ne_append {X Y : List Parameter} {t : ParamType}
    (hX : ∀ q ∈ X, q.ptype ≠ t) (hY : ∀ q ∈ Y, q.ptype ≠ t) :
    ∀ q ∈ X ++ Y, q.ptype ≠ t := by
  intro q hq
  rcases List.mem_append.mp hq with h | h
  · exact hX q h
  · exact hY q h

/-- A denoted segment of one kind is free of every other kind. -/
theorem ptype_ne_mkParams (m : PMap) {t t2 : ParamType} (hne : t ≠ t2) :
    ∀ q ∈ mkParams m t, q.ptype ≠ t2 := by
  intro q hq
  rw [mem_mkParams_ptype m t q hq]
  exact hne

/-- The expanded collection of three good flat maps is the concatenation of
their denoted kind segments, in the fixed merge order Configuration, System,
Environment. -/
theorem expandParameterCollection_eq (env sys cfg : Option PMap)
    (henv : ∀ m, env = some m → m ≠ [] ∧ (m.map Prod.fst).Nodup)
    (hsys : ∀ m, sys = some m → m ≠ [] ∧ (m.map Prod.fst).Nodup)
    (hcfg : ∀ m, cfg = some m → m ≠ [] ∧ (m.map Prod.fst).Nodup) :
    expandParameterCollection env sys cfg =
      mkParams (cfg.getD []) .configuration ++ mkParams (sys.getD []) .system
        ++ mkParams (env.getD []) .environmentVariable := by
  unfold expandParameterCollection
  rw [getOkList_of_good env (fun m hm => (henv m hm).1),
      getOkList_of_good sys (fun m hm => (hsys m hm).1),
      getOkList_of_good cfg (fun m hm => (hcfg m hm).1)]
  rcases env with - | me <;> rcases sys with - | ms <;> rcases cfg with - | mc <;>
    simp only [Option.map_none', Option.map_some', Option.getD_none, Option.getD_some]
  · simp [mkParams]
  · rw [expandParameters_eq_mkParams mc _ (hcfg mc rfl).2,
        concat_mkParams_append [] mc .configuration (by simp) (hcfg mc rfl).2]
    simp [mkParams]
  · rw [expandParameters_eq_mkParams ms _ (hsys ms rfl).2,
        concat_mkParams_append [] ms .system (by simp) (hsys ms rfl).2]
    simp [mkParams]
  · rw [expandParameters_eq_mkParams mc _ (hcfg mc rfl).2,
        expandParameters_eq_mkParams ms _ (hsys ms rfl).2,
        concat_mkParams_append [] mc .configuration (by simp) (hcfg mc rfl).2,
        List.nil_append,
        concat_mkParams_append _ ms .system
          (ptype_ne_mkParams mc (by decide)) (hsys ms rfl).2]
    simp [mkParams]
  · rw [expandParameters_eq_mkParams me _ (henv me rfl).2,
        concat_mkParams_append [] me .environmentVariable (by simp) (henv me rfl).2]
    simp [mkParams]
  · rw [expandParameters_eq_mkParams mc _ (hcfg mc rfl).2,
        expandParameters_eq_mkParams me _ (henv me rfl).2,
        concat_mkParams_append [] mc .configuration (by simp) (hcfg mc rfl).2,
        List.nil_append,
        concat_mkParams_append _ me .environmentVariable
          (ptype_ne_mkParams mc (by decide)) (henv me rfl).2]
    simp [mkParams]
  · rw [expandParameters_eq_mkParams ms _ (hsys ms rfl).2,
        expandParameters_eq_mkParams me _ (henv me rfl).2,
        concat_mkParams_append [] ms .system (by simp) (hsys ms rfl).2,
        List.nil_append,
        concat_mkParams_append _ me .environmentVariable
          (ptype_ne_mkParams ms (by decide)) (henv me rfl).2]
    simp [mkParams]
  · rw [expandParameters_eq_mkParams mc _ (hcfg mc rfl).2,
        expandParameters_eq_mkParams ms _ (hsys ms rfl).2,
        expandParameters_eq_mkParams me _ (henv me rfl).2,
        concat_mkParams_append [] mc .configuration (by simp) (hcfg mc rfl).2,
        List.nil_append,
        concat_mkParams_append _ ms .system
          (ptype_ne_mkParams mc (by decide)) (hsys ms rfl).2,
        concat_mkParams_append _ me .environmentVariable
          (ptype_ne_append (ptype_ne_mkParams mc (by decide))
            (ptype_ne_mkParams ms (by decide))) (henv me rfl).2]

/-- The conditional field write of flattenParameterCollection restores a
good optional map from its flattened list. -/
theorem optField_roundtrip (o : Option PMap) (h : ∀ m, o = some m → m ≠ []) :
    (if (o.getD []).length > 0 then some (o.getD []) else none) = o := by
  cases o with
  | none => simp
  | some m =>
      have hne := h m rfl
      simp [List.length_pos.mpr hne]

/-- C2: flattening the parameter collection produced by expanding three
kind-partitioned maps returns exactly the three per-kind maps (each present
map nonempty with distinct keys, matching GetOk semantics); the result does
not depend on insertion order because it holds for every order of the
association lists, and a kind whose map was absent comes back absent, not
empty, through the conditional field writes. -/
theorem c2_param_roundtrip (env sys cfg : Option PMap)
    (henv : ∀ m, env = some m → m ≠ [] ∧ (m.map Prod.fst).Nodup)
    (hsys : ∀ m, sys = some m → m ≠ [] ∧ (m.map Prod.fst).Nodup)
    (hcfg : ∀ m, cfg = some m → m ≠ [] ∧ (m.map Prod.fst).Nodup) :
    flattenParameters (expandParameterCollection env sys cfg) =
      (cfg.getD [], sys.getD [], env.getD []) ∧
    flattenParameterCollectionFields none none none (expandParameterCollection env sys cfg) =
      (env, sys, cfg) := by
  have hcnd : ((cfg.getD []).map Prod.fst).Nodup := by
    cases cfg with
    | none => simp
    | some m => exact (hcfg m rfl).2
  have hsnd : ((sys.getD []).map Prod.fst).Nodup := by
    cases sys with
    | none => simp
    | some m => exact (hsys m rfl).2
  have hend : ((env.getD []).map Prod.fst).Nodup := by
    cases env with
    | none => simp
    | some m => exact (henv m rfl).2
  have hflat : flattenParameters (expandParameterCollection env sys cfg) =
      (cfg.getD [], sys.getD [], env.getD []) := by
    rw [expandParameterCollection_eq env sys cfg henv hsys hcfg]
    exact flattenParameters_segments _ _ _ hcnd hsnd hend
  refine ⟨hflat, ?_⟩
  unfold flattenParameterCollectionFields
  rw [hflat]
  simp only [Prod.mk.injEq]
  exact ⟨optField_roundtrip env (fun m hm => (henv m hm).1),
    optField_roundtrip sys (fun m hm => (hsys m hm).1),
    optField_roundtrip cfg (fun m hm => (hcfg m hm).1)⟩

/-- C2, witness: the round trip at one present environment map, one absent
system map, and one two-entry configuration map. -/
theorem c2_param_roundtrip_witness :
    flattenParameters
        (expandParameterCollection (some [("E", "1")]) none (some [("A", "x"), ("B", "y")])) =
      ([("A", "x"), ("B", "y")], [], [("E", "1")]) ∧
    flattenParameterCollectionFields none none none
        (expandParameterCollection (some [("E", "1")]) none (some [("A", "x"), ("B", "y")])) =
      (some [("E", "1")], none, some [("A", "x"), ("B", "y")]) := by
  have h := c2_param_roundtrip (some [("E", "1")]) none (some [("A", "x"), ("B", "y")])
    (by intro m hm; injection hm with h2; subst h2; exact ⟨by decide, by decide⟩)
    (by intro m hm; cases hm)
    (by intro m hm; injection hm with h2; subst h2; exact ⟨by decide, by decide⟩)
  simpa using h

/-! ## Checkout-rule round trip continued below -/

/-- A character list without the separator splits into a single piece. -/
theorem splitBackslashN_of_no_sep (x : List Char) (h : hasSepBackslashN x = false) :
    splitBackslashN x = [x] := by
  induction x using hasSepBackslashN.induct with
  | case1 => rfl
  | case2 c => rfl
  | case3 c d rest ih =>
      simp only [hasSepBackslashN, Bool.or_eq_false_iff, decide_eq_false_iff_not] at h
      rw [splitBackslashN, if_neg h.1, ih h.2]

/-- Splitting a separator-free block followed by the separator peels off the
block: the scan cannot find the separator earlier, because the separator has
two distinct characters and does not occur in the block. -/
theorem splitBackslashN_append (x t : List Char) (h : hasSepBackslashN x = false) :
    splitBackslashN (x ++ '\\' :: 'n' :: t) = x :: splitBackslashN t := by
  induction x using hasSepBackslashN.induct with
  | case1 =>
      rw [List.nil_append, splitBackslashN, if_pos ⟨rfl, rfl⟩]
  | case2 c =>
      have base : splitBackslashN ('\\' :: 'n' :: t) = [] :: splitBackslashN t := by
        rw [splitBackslashN, if_pos ⟨rfl, rfl⟩]
      have hne : ¬(c = '\\' ∧ ('\\' : Char) = 'n') := by
        rintro ⟨-, h2⟩
        exact absurd h2 (by decide)
      rw [List.cons_append, List.nil_append, splitBackslashN, if_neg hne, base]
  | case3 c d rest ih =>
      simp only [hasSepBackslashN, Bool.or_eq_false_iff, decide_eq_false_iff_not] at h
      rw [List.cons_append, List.cons_append] at *
      rw [splitBackslashN, if_neg h.1]
      rw [ih h.2]

/-- Splitting the join of a nonempty list of separator-free blocks recovers
the list. -/
theorem splitBackslashN_joinBackslashN (l : List (List Char)) (hne : l ≠ [])
    (h : ∀ x ∈ l, hasSepBackslashN x = false) :
    splitBackslashN (joinBackslashN l) = l := by
  induction l with
  | nil => exact absurd rfl hne
  | cons x xs ih =>
      cases xs with
      | nil => simpa [joinBackslashN] using splitBackslashN_of_no_sep x (h x (by simp))
      | cons y ys =>
          have hx : hasSepBackslashN x = false := h x (by simp)
          have hrest : ∀ z ∈ y :: ys, hasSepBackslashN z = false := fun z hz => h z (by simp [hz])
          have hjoin : joinBackslashN (x :: y :: ys) = x ++ '\\' :: 'n' :: joinBackslashN (y :: ys) := rfl
          rw [hjoin, splitBackslashN_append x _ hx, ih (by simp) hrest]

/-- Rebuilding a string from its character data is the identity. -/
theorem stringMk_data (s : String) : String.mk s.data = s :=
  rfl

/-- C8, counterexample: for the empty rule list the attach serializes the
empty string, and the split performed on Read turns the empty string into a
one-element list holding the empty string, not back into the empty list. -/
theorem c8_split_join_counterexample :
    (buildVcsRootEntry ⟨"vcs1", []⟩).checkoutRules = "" ∧
    splitCheckoutRules (buildVcsRootEntry ⟨"vcs1", []⟩).checkoutRules = [""] ∧
    splitCheckoutRules (buildVcsRootEntry ⟨"vcs1", []⟩).checkoutRules ≠ ([] : List String) := by
  exact ⟨rfl, rfl, by decide⟩

/-- C8, amended: for every nonempty checkout-rule list whose rules do not
contain the two-character separator sequence, the split performed on Read is
a left inverse of the join performed on attach; the empty list instead
serializes to the empty string, which reads back as a one-element list
holding the empty string. -/
theorem c8_split_left_inverse_of_join (r : VcsRootRecord) (hne : r.checkoutRules ≠ [])
    (h : ∀ rule ∈ r.checkoutRules, hasSepBackslashN rule.data = false) :
    splitCheckoutRules (buildVcsRootEntry r).checkoutRules = r.checkoutRules := by
  have hlen : r.checkoutRules.length > 0 := List.length_pos.mpr hne
  have hmapne : r.checkoutRules.map String.data ≠ [] := by
    simpa using hne
  have hmap : ∀ x ∈ r.checkoutRules.map String.data, hasSepBackslashN x = false := by
    intro x hx
    rcases List.mem_map.mp hx with ⟨rule, hrule, hdata⟩
    exact hdata ▸ h rule hrule
  unfold buildVcsRootEntry splitCheckoutRules joinRules
  rw [if_pos hlen]
  simp only [stringMk_data]
  rw [splitBackslashN_joinBackslashN _ hmapne hmap, List.map_map]
  have hid : (String.mk ∘ String.data) = id := funext fun s => rfl
  rw [hid, List.map_id]

/-- C8, witness: the amended theorem at a concrete two-rule list. -/
theorem c8_split_left_inverse_of_join_witness :
    ((["+:a", "-:b"] : List String) ≠ []) ∧
    splitCheckoutRules (buildVcsRootEntry ⟨"vcs1", ["+:a", "-:b"]⟩).checkoutRules =
      ["+:a", "-:b"] :=
  ⟨by decide, c8_split_left_inverse_of_join ⟨"vcs1", ["+:a", "-:b"]⟩ (by decide) (by decide)⟩

/-! ## Read frame effects -/

/-- A collection without environment parameters leaves the environment
component of the flatten loop untouched. -/
theorem flattenParametersAux_env_frame (items : List Parameter) (acc : PMap × PMap × PMap)
    (h : ∀ p ∈ items, p.ptype ≠ ParamType.environmentVariable) :
    (flattenParametersAux items acc).2.2 = acc.2.2 := by
  induction items generalizing acc with
  | nil => rfl
  | cons p rest ih =>
      obtain ⟨c, s, e⟩ := acc
      have htail : ∀ q ∈ rest, q.ptype ≠ ParamType.environmentVariable :=
        fun q hq => h q (by simp [hq])
      cases hpt : p.ptype with
      | configuration => simp [flattenParametersAux, hpt, ih _ htail]
      | environmentVariable => exact absurd hpt (h p (by simp))
      | system => simp [flattenParametersAux, hpt, ih _ htail]

/-- A collection without system parameters leaves the system component of
the flatten loop untouched. -/
theorem flattenParametersAux_sys_frame (items : List Parameter) (acc : PMap × PMap × PMap)
    (h : ∀ p ∈ items, p.ptype ≠ ParamType.system) :
    (flattenParametersAux items acc).2.1 = acc.2.1 := by
  induction items generalizing acc with
  | nil => rfl
  | cons p rest ih =>
      obtain ⟨c, s, e⟩ := acc
      have htail : ∀ q ∈ rest, q.ptype ≠ ParamType.system :=
        fun q hq => h q (by simp [hq])
      cases hpt : p.ptype with
      | configuration => simp [flattenParametersAux, hpt, ih _ htail]
      | environmentVariable => simp [flattenParametersAux, hpt, ih _ htail]
      | system => exact absurd hpt (h p (by simp))

/-- A collection without configuration parameters leaves the configuration
component of the flatten loop untouched. -/
theorem flattenParametersAux_config_frame (items : List Parameter) (acc : PMap × PMap × PMap)
    (h : ∀ p ∈ items, p.ptype ≠ ParamType.configuration) :
    (flattenParametersAux items acc).1 = acc.1 := by
  induction items generalizing acc with
  | nil => rfl
  | cons p rest ih =>
      obtain ⟨c, s, e⟩ := acc
      have htail : ∀ q ∈ rest, q.ptype ≠ ParamType.configuration :=
        fun q hq => h q (by simp [hq])
      cases hpt : p.ptype with
      | configuration => exact absurd hpt (h p (by simp))
      | environmentVariable => simp [flattenParametersAux, hpt, ih _ htail]
      | system => simp [flattenParametersAux, hpt, ih _ htail]

/-- C10: on a Read of a build configuration whose remote VCS-root-entry
collection is empty, whose step collection is empty, or which has zero
parameters of some kind, the corresponding declarative field (vcs_root,
step, or that kind's parameter map) is not written and keeps its previous
value. -/
theorem c10_read_keeps_unset_fields (d : BCData) (bt : RemoteBC) (hid : bt.id = d.id) :
    (bt.vcsEntries = [] →
      ((resourceBuildConfigurationRead d (some bt)).2.1).vcsRoot = d.vcsRoot) ∧
    (bt.steps = [] →
      ((resourceBuildConfigurationRead d (some bt)).2.1).step = d.step) ∧
    ((∀ p ∈ bt.parameters, p.ptype ≠ ParamType.environmentVariable) →
      ((resourceBuildConfigurationRead d (some bt)).2.1).envParams = d.envParams) ∧
    ((∀ p ∈ bt.parameters, p.ptype ≠ ParamType.system) →
      ((resourceBuildConfigurationRead d (some bt)).2.1).sysParams = d.sysParams) ∧
    ((∀ p ∈ bt.parameters, p.ptype ≠ ParamType.configuration) →
      ((resourceBuildConfigurationRead d (some bt)).2.1).configParams = d.configParams) := by
  have hget : getBuildTypeById (some bt) d.id = .ok bt := by
    simp [getBuildTypeById, hid]
  have hsteps : getStepsRemote (some bt) d.id = .ok bt.steps := by
    simp [getStepsRemote, hid]
  refine ⟨?_, ?_, ?_, ?_, ?_⟩
  · intro hv
    simp only [resourceBuildConfigurationRead, hget, hsteps, hv]
    simp [flattenParameterCollectionBC, flattenParameterCollectionFields]
    repeat' split
    all_goals simp
  · intro hs
    simp only [resourceBuildConfigurationRead, hget, hsteps, hs]
    simp [flattenParameterCollectionBC, flattenParameterCollectionFields]
    repeat' split
    all_goals simp
  · intro hp
    have hcomp : (flattenParameters bt.parameters).2.2 = [] :=
      flattenParametersAux_env_frame bt.parameters ([], [], []) hp
    simp only [resourceBuildConfigurationRead, hget, hsteps]
    simp [flattenParameterCollectionBC, flattenParameterCollectionFields, hcomp]
    repeat' split
    all_goals simp
  · intro hp
    have hcomp : (flattenParameters bt.parameters).2.1 = [] :=
      flattenParametersAux_sys_frame bt.parameters ([], [], []) hp
    simp only [resourceBuildConfigurationRead, hget, hsteps]
    simp [flattenParameterCollectionBC, flattenParameterCollectionFields, hcomp]
    repeat' split
    all_goals simp
  · intro hp
    have hcomp : (flattenParameters bt.parameters).1 = [] :=
      flattenParametersAux_config_frame bt.parameters ([], [], []) hp
    simp only [resourceBuildConfigurationRead, hget, hsteps]
    simp [flattenParameterCollectionBC, flattenParameterCollectionFields, hcomp]
    repeat' split
    all_goals simp

/-- C10, witness: a remote entity with empty sub-collections against a state
holding previous values, which all survive the Read. -/
theorem c10_read_keeps_unset_fields_witness :
    ((resourceBuildConfigurationRead
        { id := "bt1", vcsRoot := some [⟨"old", ["r"]⟩], step := some [{ type := "powershell" }],
          envParams := some [("E", "1")], sysParams := some [("S", "2")],
          configParams := some [("C", "3")] }
        (some { id := "bt1", name := "n", projectId := "p", description := "",
                parameters := [], vcsEntries := [], steps := [] })).2.1) =
      { id := "bt1", name := some "n", projectId := some "p", description := some "",
        vcsRoot := some [⟨"old", ["r"]⟩], step := some [{ type := "powershell" }],
        envParams := some [("E", "1")], sysParams := some [("S", "2")],
        configParams := some [("C", "3")] } := by
  have h := c10_read_keeps_unset_fields
    { id := "bt1", vcsRoot := some [⟨"old", ["r"]⟩], step := some [{ type := "powershell" }],
      envParams := some [("E", "1")], sysParams := some [("S", "2")],
      configParams := some [("C", "3")] }
    { id := "bt1", name := "n", projectId := "p", description := "",
      parameters := [], vcsEntries := [], steps := [] } rfl
  have h1 := h.1 rfl
  have h2 := h.2.1 rfl
  have h3 := h.2.2.1 (by intro p hp; cases hp)
  have h4 := h.2.2.2.1 (by intro p hp; cases hp)
  have h5 := h.2.2.2.2 (by intro p hp; cases hp)
  refine BCData.ext ?_ ?_ ?_ ?_ ?_ ?_ ?_ ?_ ?_ <;>
    first
    | exact h1
    | exact h2
    | exact h3
    | exact h4
    | exact h5
    | rfl

/-! ## Claims about the reconciler frame behaviour -/

/-- The declarative state a successful Read produces, as a function of the
previous state, the fetched entity and the flattened step records. -/
def readStateBC (d : BCData) (bt : RemoteBC) (recs : List StepRecord) : BCData :=
  let d1 := { d with name := some bt.name, description := some bt.description,
                     projectId := some bt.projectId }
  let d2 := flattenParameterCollectionBC d1 bt.parameters
  let d3 := if bt.vcsEntries.length > 0 then
              { d2 with vcsRoot := some (bt.vcsEntries.map readVcsEntry) }
            else d2
  if bt.steps.length > 0 then { d3 with step := some recs } else d3

/-- A successful fetch returns the stored entity, whose id matches. -/
theorem getBuildTypeById_ok {r : Option RemoteBC} {id : String} {bt : RemoteBC}
    (h : getBuildTypeById r id = .ok bt) : r = some bt ∧ bt.id = id := by
  cases r with
  | none => simp [getBuildTypeById] at h
  | some b =>
      by_cases hb : b.id = id
      · simp [getBuildTypeById, hb] at h
        subst h
        exact ⟨rfl, hb⟩
      · simp [getBuildTypeById, hb] at h

/-- Read on a present entity with flattenable steps succeeds and produces
the read state. -/
theorem readBC_ok_form (d : BCData) (bt : RemoteBC) (recs : List StepRecord)
    (hbid : bt.id = d.id) (hrecs : flattenSteps bt.steps = .ok recs) :
    resourceBuildConfigurationRead d (some bt) =
      (none, readStateBC d bt recs, [.getBuildTypeById d.id, .getStepsCall d.id]) := by
  have hget : getBuildTypeById (some bt) d.id = .ok bt := by
    simp [getBuildTypeById, hbid]
  have hst : getStepsRemote (some bt) d.id = .ok bt.steps := by
    simp [getStepsRemote, hbid]
  by_cases hstep : bt.steps.length > 0 <;>
    simp [resourceBuildConfigurationRead, hget, hst, hrecs, readStateBC, hstep]

/-- Read never touches the id field. -/
theorem readStateBC_id (d : BCData) (bt : RemoteBC) (recs : List StepRecord) :
    (readStateBC d bt recs).id = d.id := by
  unfold readStateBC flattenParameterCollectionBC flattenParameterCollectionFields
  repeat' split
  all_goals simp

/-- The read state is a fixpoint of reading again from the same entity. -/
theorem readStateBC_idem (d : BCData) (bt : RemoteBC) (recs : List StepRecord) :
    readStateBC (readStateBC d bt recs) bt recs = readStateBC d bt recs := by
  unfold readStateBC flattenParameterCollectionBC flattenParameterCollectionFields
  by_cases h1 : (flattenParameters bt.parameters).2.2.length > 0 <;>
  by_cases h2 : (flattenParameters bt.parameters).2.1.length > 0 <;>
  by_cases h3 : (flattenParameters bt.parameters).1.length > 0 <;>
  by_cases h4 : bt.vcsEntries.length > 0 <;>
  by_cases h5 : bt.steps.length > 0 <;>
  simp [h1, h2, h3, h4, h5]

/-- After a successful Read, reading again from the same remote state
reproduces the same result: the read state is what a fresh Read would
produce. -/
theorem readBC_idem (d : BCData) (r : Option RemoteBC)
    (h : (resourceBuildConfigurationRead d r).1 = none) :
    resourceBuildConfigurationRead ((resourceBuildConfigurationRead d r).2.1) r =
      resourceBuildConfigurationRead d r := by
  cases hget : getBuildTypeById r d.id with
  | error e =>
      exfalso
      simp [resourceBuildConfigurationRead, hget] at h
  | ok bt =>
      obtain ⟨hr, hbid⟩ := getBuildTypeById_ok hget
      subst hr
      cases hfl : flattenSteps bt.steps with
      | error e =>
          exfalso
          by_cases hstep : bt.steps.length > 0
          · have hst : getStepsRemote (some bt) d.id = .ok bt.steps := by
              simp [getStepsRemote, hbid]
            simp [resourceBuildConfigurationRead, hget, hst, hstep, hfl] at h
          · have hnil : bt.steps = [] := by
              cases hs : bt.steps with
              | nil => rfl
              | cons a l => rw [hs] at hstep; simp at hstep
            rw [hnil] at hfl
            simp [flattenSteps] at hfl
      | ok recs =>
          have h1 := readBC_ok_form d bt recs hbid hfl
          have hbid2 : bt.id = (readStateBC d bt recs).id := by
            rw [readStateBC_id]
            exact hbid
          have h2 := readBC_ok_form (readStateBC d bt recs) bt recs hbid2 hfl
          rw [h1]
          simp only
          rw [h2, readStateBC_idem, readStateBC_id]

/-- Fetching a stored project by its own id succeeds. -/
theorem getProjectById_self (p : RemoteProject) : getProjectById (some p) p.id = .ok p := by
  simp [getProjectById]

/-- C9, counterexample: Project Create ends by delegating to Update, not
Read; at a concrete input the Create succeeds, yet the declarative state it
leaves differs from what a fresh Read of the created entity produces (the
Read writes the remote description, Create never does). -/
theorem c9_project_create_counterexample :
    (resourceProjectCreate { name := some "N" } "p1").1 = none ∧
    (resourceProjectRead (resourceProjectCreate { name := some "N" } "p1").2.1
        (resourceProjectCreate { name := some "N" } "p1").2.2.1).2.1 ≠
      (resourceProjectCreate { name := some "N" } "p1").2.1 := by
  constructor <;> decide

/-- C9, amended: Build Configuration Create ends with a full Read, so on
success the declarative state it leaves is exactly what a fresh Read of the
created entity produces; Project Create instead ends by delegating to
Update and performs no Read, so on success it leaves the input state with
only the assigned id set, without remote-assigned defaults. -/
theorem c9_create_read_normalization :
    (∀ (d : BCData) (orc : Oracle) (aid : String),
      (resourceBuildConfigurationCreate d orc aid).1 = none →
      (resourceBuildConfigurationRead (resourceBuildConfigurationCreate d orc aid).2.1
          (resourceBuildConfigurationCreate d orc aid).2.2.1).1 = none ∧
      (resourceBuildConfigurationRead (resourceBuildConfigurationCreate d orc aid).2.1
          (resourceBuildConfigurationCreate d orc aid).2.2.1).2.1 =
        (resourceBuildConfigurationCreate d orc aid).2.1) ∧
    (∀ (d : ProjData) (aid : String),
      (resourceProjectCreate d aid).1 = none ∧
      (resourceProjectCreate d aid).2.1 = { d with id := aid }) := by
  constructor
  · intro d orc aid h
    have htail : ∀ (pid : String) (d1 : BCData) (created : RemoteBC),
        (resourceBuildConfigurationCreateTail orc pid d1 created).1 = none →
        (resourceBuildConfigurationRead
            (resourceBuildConfigurationCreateTail orc pid d1 created).2.1
            (resourceBuildConfigurationCreateTail orc pid d1 created).2.2.1).1 = none ∧
        (resourceBuildConfigurationRead
            (resourceBuildConfigurationCreateTail orc pid d1 created).2.1
            (resourceBuildConfigurationCreateTail orc pid d1 created).2.2.1).2.1 =
          (resourceBuildConfigurationCreateTail orc pid d1 created).2.1 := by
      intro pid d1 created htl
      unfold resourceBuildConfigurationCreateTail at htl ⊢
      try simp only [] at htl
      try simp only []
      split at htl
      · simp at htl
      · split at htl
        · simp at htl
        · try simp only [] at htl
          try simp only []
          have hidem := readBC_idem d1 _ htl
          exact ⟨by rw [hidem]; exact htl, by rw [hidem]⟩
    unfold resourceBuildConfigurationCreate at h ⊢
    try simp only [] at h
    try simp only []
    split at h
    · simp at h
    · exact htail _ _ _ h
  · intro d aid
    refine ⟨?_, ?_⟩ <;>
      simp [resourceProjectCreate, resourceProjectUpdate, getProjectById]

/-- C9, witness: the build-configuration half at a concrete create run with
one step and no failures, and the project half at a concrete input. -/
theorem c9_create_read_normalization_witness :
    (resourceBuildConfigurationCreate
        { name := some "bc", projectId := some "p", step := some [{ type := "cmd_line", file := some "b.sh" }] }
        {} "bt1").1 = none ∧
    (resourceBuildConfigurationRead
        (resourceBuildConfigurationCreate
          { name := some "bc", projectId := some "p", step := some [{ type := "cmd_line", file := some "b.sh" }] }
          {} "bt1").2.1
        (resourceBuildConfigurationCreate
          { name := some "bc", projectId := some "p", step := some [{ type := "cmd_line", file := some "b.sh" }] }
          {} "bt1").2.2.1).2.1 =
      (resourceBuildConfigurationCreate
        { name := some "bc", projectId := some "p", step := some [{ type := "cmd_line", file := some "b.sh" }] }
        {} "bt1").2.1 ∧
    (resourceProjectCreate { name := some "N" } "p1").2.1 =
      { id := "p1", name := some "N" } := by
  refine ⟨by decide, ?_, ?_⟩
  · exact (c9_create_read_normalization.1
      { name := some "bc", projectId := some "p", step := some [{ type := "cmd_line", file := some "b.sh" }] }
      {} "bt1" (by decide)).2
  · exact (c9_create_read_normalization.2 { name := some "N" } "p1").2

/-! ## Create with a failing sub-resource call -/

/-- Flattening a powershell variant dispatches to the powershell helper. -/
theorem flattenBuildStep_powershell (p : StepPowershell) :
    flattenBuildStep (.powershell p) = .ok (flattenBuildStepPowershell p) := by
  rfl

/-- Flattening a command-line variant dispatches to the command-line
helper. -/
theorem flattenBuildStep_cmdLine (c : StepCommandLine) :
    flattenBuildStep (.cmdLine c) = .ok (flattenBuildStepCmdLine c) := by
  rfl

/-- One successful attach call appends the entry and recurses. -/
theorem attachVcsLoop_single_ok (orc : Oracle) (btId : String) (r : VcsRootRecord)
    (remote : Option RemoteBC) (ha : orc.attachVcsErr 0 = none) :
    attachVcsLoop orc btId [r] 0 remote =
      (none, remoteAttach remote btId (buildVcsRootEntry r),
       [.attachVcsRootEntry btId (buildVcsRootEntry r)]) := by
  simp [attachVcsLoop, ha]

/-- When the first add-step call succeeds and the second fails, the loop
stops after the second call: the first step is added remotely, the error of
the second call is returned, and no further step is attempted. -/
theorem addStepLoop_second_fails (orc : Oracle) (btId : String)
    (s1 s2 : StepRecord) (rest : List StepRecord) (remote : Option RemoteBC)
    (st1 st2 : Step) (E : GoErr)
    (he1 : expandBuildStep s1 = .ok st1) (he2 : expandBuildStep s2 = .ok st2)
    (h0 : orc.addStepErr 0 = none) (h1 : orc.addStepErr 1 = some E) :
    addStepLoop orc btId (s1 :: s2 :: rest) 0 remote =
      (some E, remoteAddStep remote btId st1, [.addStep btId st1, .addStep btId st2]) := by
  simp [addStepLoop, he1, he2, h0, h1]

/-- A successful Read of an entity with a nonempty flattenable step list
reports no error and stores exactly the flattened records. -/
theorem readBC_ok_parts (dd : BCData) (bt : RemoteBC) (recs : List StepRecord)
    (hbid : bt.id = dd.id) (hrecs : flattenSteps bt.steps = .ok recs)
    (hne : bt.steps ≠ []) :
    (resourceBuildConfigurationRead dd (some bt)).1 = none ∧
    ((resourceBuildConfigurationRead dd (some bt)).2.1).step = some recs := by
  rw [readBC_ok_form dd bt recs hbid hrecs]
  refine ⟨rfl, ?_⟩
  simp [readStateBC, List.length_pos.mpr hne]

/-- C3: during Create, the VCS-root attachment and then the build steps are
applied one at a time in list order; when the second step-addition call
fails, Create returns that error immediately, the trace stops at the failing
call (no later step is attempted), nothing is rolled back, the created
entity remains with its VCS root and exactly the first step attached, and a
subsequent Read succeeds and shows exactly that one step. -/
theorem c3_create_partial_failure (d : BCData) (orc : Oracle) (aid : String)
    (v : VcsRootRecord) (s1 s2 : StepRecord) (rest : List StepRecord) (E : GoErr)
    (hv : d.vcsRoot = some [v])
    (hs : d.step = some (s1 :: s2 :: rest))
    (ht1 : s1.type = "powershell" ∨ s1.type = "cmd_line")
    (ht2 : s2.type = "powershell" ∨ s2.type = "cmd_line")
    (hc : orc.createBuildTypeErr = none)
    (ha : orc.attachVcsErr 0 = none)
    (h0 : orc.addStepErr 0 = none)
    (h1 : orc.addStepErr 1 = some E) :
    ∃ (st1 st2 : Step),
      expandBuildStep s1 = .ok st1 ∧ expandBuildStep s2 = .ok st2 ∧
      (resourceBuildConfigurationCreate d orc aid).1 = some E ∧
      (resourceBuildConfigurationCreate d orc aid).2.1 = { d with id := aid } ∧
      (∃ bt : RemoteBC,
        (resourceBuildConfigurationCreate d orc aid).2.2.1 = some bt ∧
        bt.id = aid ∧
        bt.vcsEntries = [buildVcsRootEntry v] ∧
        bt.steps = [st1]) ∧
      (resourceBuildConfigurationCreate d orc aid).2.2.2 =
        [.createBuildType ((getOkStr d.projectId).getD ""),
         .attachVcsRootEntry aid (buildVcsRootEntry v),
         .addStep aid st1, .addStep aid st2] ∧
      (resourceBuildConfigurationRead (resourceBuildConfigurationCreate d orc aid).2.1
          (resourceBuildConfigurationCreate d orc aid).2.2.1).1 = none ∧
      (∃ rec : StepRecord,
        ((resourceBuildConfigurationRead (resourceBuildConfigurationCreate d orc aid).2.1
            (resourceBuildConfigurationCreate d orc aid).2.2.1).2.1).step = some [rec]) := by
  obtain ⟨st1, he1, rec1, hf1⟩ :
      ∃ st, expandBuildStep s1 = .ok st ∧ ∃ rec, flattenBuildStep st = .ok rec := by
    rcases ht1 with h | h
    · exact ⟨.powershell (expandStepPowershell s1), by simp [expandBuildStep, h],
        flattenBuildStepPowershell (expandStepPowershell s1), flattenBuildStep_powershell _⟩
    · exact ⟨.cmdLine (expandStepCmdLine s1), by simp [expandBuildStep, h],
        flattenBuildStepCmdLine (expandStepCmdLine s1), flattenBuildStep_cmdLine _⟩
  obtain ⟨st2, he2⟩ : ∃ st, expandBuildStep s2 = .ok st := by
    rcases ht2 with h | h
    · exact ⟨.powershell (expandStepPowershell s2), by simp [expandBuildStep, h]⟩
    · exact ⟨.cmdLine (expandStepCmdLine s2), by simp [expandBuildStep, h]⟩
  refine ⟨st1, st2, he1, he2, ?_⟩
  have hflsteps : flattenSteps [st1] = .ok [rec1] := by
    simp [flattenSteps, hf1]
  unfold resourceBuildConfigurationCreate resourceBuildConfigurationCreateTail
  cases hdesc : getOkStr d.description
  all_goals
    simp only [hdesc, hc, hv, hs, getOkList, List.isEmpty_cons, Bool.false_eq_true,
      if_false, Option.getD_some]
    rw [attachVcsLoop_single_ok orc aid v _ ha]
    simp only [remoteAttach, Option.map_some']
    rw [addStepLoop_second_fails orc aid s1 s2 rest _ st1 st2 E he1 he2 h0 h1]
    simp only [remoteAddStep, Option.map_some']
    simp only [List.cons_append, List.nil_append, eq_self_iff_true, if_true]
    refine ⟨trivial, trivial, ⟨_, rfl, rfl, rfl, rfl⟩, trivial, ?_, ⟨rec1, ?_⟩⟩
    · exact (readBC_ok_parts _ _ [rec1] rfl hflsteps (by simp)).1
    · exact (readBC_ok_parts _ _ [rec1] rfl hflsteps (by simp)).2

/-- C3, witness: a concrete create run with one VCS root and two steps where
the second add-step call fails: the error is returned, the entity keeps
exactly one step, and a subsequent Read succeeds showing one step. -/
theorem c3_create_partial_failure_witness :
    (resourceBuildConfigurationCreate
        { name := some "bc", projectId := some "p",
          vcsRoot := some [⟨"vcs1", ["+:."]⟩],
          step := some [{ type := "powershell", code := some "Write-Host hi" },
                        { type := "cmd_line", file := some "b.sh" }] }
        { addStepErr := fun i => if i == 1 then some (.remoteCallFailure "boom") else none }
        "bt1").1 = some (.remoteCallFailure "boom") ∧
    (∃ bt : RemoteBC,
      (resourceBuildConfigurationCreate
        { name := some "bc", projectId := some "p",
          vcsRoot := some [⟨"vcs1", ["+:."]⟩],
          step := some [{ type := "powershell", code := some "Write-Host hi" },
                        { type := "cmd_line", file := some "b.sh" }] }
        { addStepErr := fun i => if i == 1 then some (.remoteCallFailure "boom") else none }
        "bt1").2.2.1 = some bt ∧ bt.steps.length = 1) := by
  obtain ⟨st1, st2, -, -, herr, -, ⟨bt, hbt, -, -, hsteps⟩, -⟩ :=
    c3_create_partial_failure
      { name := some "bc", projectId := some "p",
        vcsRoot := some [⟨"vcs1", ["+:."]⟩],
        step := some [{ type := "powershell", code := some "Write-Host hi" },
                      { type := "cmd_line", file := some "b.sh" }] }
      { addStepErr := fun i => if i == 1 then some (.remoteCallFailure "boom") else none }
      "bt1" ⟨"vcs1", ["+:."]⟩
      { type := "powershell", code := some "Write-Host hi" }
      { type := "cmd_line", file := some "b.sh" } [] (.remoteCallFailure "boom")
      rfl rfl (.inl rfl) (.inr rfl) rfl rfl (by decide) (by decide)
  exact ⟨herr, bt, hbt, by simp [hsteps]⟩
theorem c7_update_is_noop :
    ∀ (d : BCData) (remote : Option RemoteBC),
      resourceBuildConfigurationUpdate d remote = (none, d, remote, []) :=
  fun _ _ => rfl

end TC
